import Mathlib

/-!
Verification of the BrainPrint geometry-and-spectrum pipeline.

This file gives a shallow embedding (over exact rationals) of the parts of
the repository that the checked claims are about:

* `computeABtria` (src/brainprintpython/computeABtria.py): assembly of the
  FEM stiffness matrix A and mass matrix B of a triangle mesh.
* `create_aseg_surface` (src/brainprint/surfaces.py): connected-component
  selection, triangle filtering, free-vertex removal, and the VTK-export
  step.
* `_compute_brainprint` (src/brainprint/brainprint.py): the per-structure
  shape-DNA loop with its exception handling.
* `compute_asymmetry` (src/brainprint/asymmetry.py): lateral asymmetry
  distances.
* `_get_ev` (src/brainprint/brainprint.py): the first-eigenvalue snapping.

Machine floats are modelled by rationals; the numeric square root
(`numpy.sqrt`) is passed as an oracle function `sq : ℚ → ℚ`, so every
theorem proved for all `sq` holds in particular for the real square root.
-/

namespace BrainPrint

/-- A 3D vertex position (one row of the `v` array), with rational
coordinates modelling floats. -/
structure Vec3 where
  x : ℚ
  y : ℚ
  z : ℚ
deriving DecidableEq

/-- One triangle: the three vertex indices of a row of the `t` array
(`t1 = t[:,0]`, `t2 = t[:,1]`, `t3 = t[:,2]`). -/
structure Tri where
  t1 : ℕ
  t2 : ℕ
  t3 : ℕ
deriving DecidableEq

/-- Componentwise difference of two vertices (e.g. `v2 - v1`). -/
def vsub (a b : Vec3) : Vec3 :=
  ⟨a.x - b.x, a.y - b.y, a.z - b.z⟩

/-- Dot product (`np.sum(a*b, axis=1)` for one row). -/
def vdot (a b : Vec3) : ℚ :=
  a.x * b.x + a.y * b.y + a.z * b.z

/-- Cross product (`np.cross` for one row). -/
def vcross (a b : Vec3) : Vec3 :=
  ⟨a.y * b.z - a.z * b.y, a.z * b.x - a.x * b.z, a.x * b.y - a.y * b.x⟩

/-- Vertex lookup `v[i, :]`; out-of-range indices default to the origin
(the claims only concern in-range indices). -/
def getVertex (v : List Vec3) (i : ℕ) : Vec3 :=
  v.getD i ⟨0, 0, 0⟩

/-- Edge vector `v2mv1 = v2 - v1` of a triangle. -/
def edgeV2mV1 (v : List Vec3) (tr : Tri) : Vec3 :=
  vsub (getVertex v tr.t2) (getVertex v tr.t1)

/-- Edge vector `v3mv2 = v3 - v2` of a triangle. -/
def edgeV3mV2 (v : List Vec3) (tr : Tri) : Vec3 :=
  vsub (getVertex v tr.t3) (getVertex v tr.t2)

/-- Edge vector `v1mv3 = v1 - v3` of a triangle. -/
def edgeV1mV3 (v : List Vec3) (tr : Tri) : Vec3 :=
  vsub (getVertex v tr.t1) (getVertex v tr.t3)

/-- The per-triangle cross product `cr = np.cross(v3mv2, v1mv3)`. -/
def crossTri (v : List Vec3) (tr : Tri) : Vec3 :=
  vcross (edgeV3mV2 v tr) (edgeV1mV3 v tr)

/-- The per-triangle value `vol = 2 * np.sqrt(np.sum(cr*cr, axis=1))`
(four times the triangle area).  `sq` is the oracle for `np.sqrt`. -/
def volRaw (sq : ℚ → ℚ) (v : List Vec3) (tr : Tri) : ℚ :=
  2 * sq (vdot (crossTri v tr) (crossTri v tr))

/-- Machine epsilon `sys.float_info.epsilon` for IEEE-754 doubles. -/
def floatEps : ℚ :=
  1 / 2 ^ 52

/-- The per-triangle array `vol` before the zero-area substitution. -/
def rawVols (sq : ℚ → ℚ) (v : List Vec3) (t : List Tri) : List ℚ :=
  t.map (volRaw sq v)

/-- The substitute value `vol_mean = 0.0001 * np.mean(vol)` computed from
the raw `vol` array of the whole mesh. -/
def volMeanSub (sq : ℚ → ℚ) (v : List Vec3) (t : List Tri) : ℚ :=
  (1 / 10000) * ((rawVols sq v t).sum / (t.length : ℚ))

/-- The per-triangle `vol` after the masked assignment
`vol[vol < sys.float_info.epsilon] = vol_mean`. -/
def volFixed (sq : ℚ → ℚ) (v : List Vec3) (t : List Tri) (tr : Tri) : ℚ :=
  if volRaw sq v tr < floatEps then volMeanSub sq v t else volRaw sq v tr

/-- Cotangent value `A12 = np.sum(v3mv2*v1mv3, axis=1) / vol`. -/
def a12 (sq : ℚ → ℚ) (v : List Vec3) (t : List Tri) (tr : Tri) : ℚ :=
  vdot (edgeV3mV2 v tr) (edgeV1mV3 v tr) / volFixed sq v t tr

/-- Cotangent value `A23 = np.sum(v1mv3*v2mv1, axis=1) / vol`. -/
def a23 (sq : ℚ → ℚ) (v : List Vec3) (t : List Tri) (tr : Tri) : ℚ :=
  vdot (edgeV1mV3 v tr) (edgeV2mV1 v tr) / volFixed sq v t tr

/-- Cotangent value `A31 = np.sum(v2mv1*v3mv2, axis=1) / vol`. -/
def a31 (sq : ℚ → ℚ) (v : List Vec3) (t : List Tri) (tr : Tri) : ℚ :=
  vdot (edgeV2mV1 v tr) (edgeV3mV2 v tr) / volFixed sq v t tr

/-- Local diagonal `A11 = -A12 - A31`. -/
def a11 (sq : ℚ → ℚ) (v : List Vec3) (t : List Tri) (tr : Tri) : ℚ :=
  -a12 sq v t tr - a31 sq v t tr

/-- Local diagonal `A22 = -A12 - A23`. -/
def a22 (sq : ℚ → ℚ) (v : List Vec3) (t : List Tri) (tr : Tri) : ℚ :=
  -a12 sq v t tr - a23 sq v t tr

/-- Local diagonal `A33 = -A31 - A23`. -/
def a33 (sq : ℚ → ℚ) (v : List Vec3) (t : List Tri) (tr : Tri) : ℚ :=
  -a31 sq v t tr - a23 sq v t tr

/-- The nine stacked stiffness entries one triangle scatters into the
sparse matrix: values `(A12, A12, A23, A23, A31, A31, A11, A22, A33)` at
index pairs `((t1,t2), (t2,t1), (t2,t3), (t3,t2), (t3,t1), (t1,t3),
(t1,t1), (t2,t2), (t3,t3))`.  Coincident index pairs add up, exactly as
`scipy.sparse.csc_matrix((localA, (I, J)))` sums duplicate entries. -/
def localA (sq : ℚ → ℚ) (v : List Vec3) (t : List Tri) (tr : Tri)
    (i j : ℕ) : ℚ :=
  (if i = tr.t1 ∧ j = tr.t2 then a12 sq v t tr else 0)
    + (if i = tr.t2 ∧ j = tr.t1 then a12 sq v t tr else 0)
    + (if i = tr.t2 ∧ j = tr.t3 then a23 sq v t tr else 0)
    + (if i = tr.t3 ∧ j = tr.t2 then a23 sq v t tr else 0)
    + (if i = tr.t3 ∧ j = tr.t1 then a31 sq v t tr else 0)
    + (if i = tr.t1 ∧ j = tr.t3 then a31 sq v t tr else 0)
    + (if i = tr.t1 ∧ j = tr.t1 then a11 sq v t tr else 0)
    + (if i = tr.t2 ∧ j = tr.t2 then a22 sq v t tr else 0)
    + (if i = tr.t3 ∧ j = tr.t3 then a33 sq v t tr else 0)

/-- Assembly of the `(i,j)` stiffness entry from a given list of
triangles, while the mesh `t` used for the mean-volume substitution stays
fixed. -/
def stiffAAux (sq : ℚ → ℚ) (v : List Vec3) (t : List Tri)
    (tsum : List Tri) (i j : ℕ) : ℚ :=
  (tsum.map (fun tr => localA sq v t tr i j)).sum

/-- Entry `(i,j)` of the assembled stiffness matrix
`A = sparse.csc_matrix((localA, (I, J)))`. -/
def stiffA (sq : ℚ → ℚ) (v : List Vec3) (t : List Tri) (i j : ℕ) : ℚ :=
  stiffAAux sq v t t i j

/-- The nine stacked mass entries one triangle scatters when `lump` is
false: `Bij = vol/48` at the six off-diagonal index pairs and
`Bii = vol/24` at the three diagonal pairs, at the same index pattern
`(I, J)` as the stiffness entries. -/
def localB (sq : ℚ → ℚ) (v : List Vec3) (t : List Tri) (tr : Tri)
    (i j : ℕ) : ℚ :=
  (if i = tr.t1 ∧ j = tr.t2 then volFixed sq v t tr / 48 else 0)
    + (if i = tr.t2 ∧ j = tr.t1 then volFixed sq v t tr / 48 else 0)
    + (if i = tr.t2 ∧ j = tr.t3 then volFixed sq v t tr / 48 else 0)
    + (if i = tr.t3 ∧ j = tr.t2 then volFixed sq v t tr / 48 else 0)
    + (if i = tr.t3 ∧ j = tr.t1 then volFixed sq v t tr / 48 else 0)
    + (if i = tr.t1 ∧ j = tr.t3 then volFixed sq v t tr / 48 else 0)
    + (if i = tr.t1 ∧ j = tr.t1 then volFixed sq v t tr / 24 else 0)
    + (if i = tr.t2 ∧ j = tr.t2 then volFixed sq v t tr / 24 else 0)
    + (if i = tr.t3 ∧ j = tr.t3 then volFixed sq v t tr / 24 else 0)

/-- The three stacked mass entries one triangle scatters when `lump` is
true: `Bii = vol/12` at the diagonal pairs `(t1,t1), (t2,t2), (t3,t3)`
only (`B = sparse.csc_matrix((localB, (I, I)))`). -/
def localBlump (sq : ℚ → ℚ) (v : List Vec3) (t : List Tri) (tr : Tri)
    (i j : ℕ) : ℚ :=
  (if i = tr.t1 ∧ j = tr.t1 then volFixed sq v t tr / 12 else 0)
    + (if i = tr.t2 ∧ j = tr.t2 then volFixed sq v t tr / 12 else 0)
    + (if i = tr.t3 ∧ j = tr.t3 then volFixed sq v t tr / 12 else 0)

/-- Entry `(i,j)` of the assembled mass matrix `B` for the given `lump`
flag. -/
def massB (sq : ℚ → ℚ) (v : List Vec3) (t : List Tri) (lump : Bool)
    (i j : ℕ) : ℚ :=
  if lump then (t.map (fun tr => localBlump sq v t tr i j)).sum
  else (t.map (fun tr => localB sq v t tr i j)).sum

/-! ## Mesh cleaning (`create_aseg_surface`, src/brainprint/surfaces.py)

`comps = sp.csgraph.connected_components(aseg_mesh.adj_sym, directed=False)`
is an external scipy call.  Its result is modelled as a pair
`(k, labels)` satisfying the scipy contract: `labels` has one entry per
vertex, the set of label values is `{0, ..., k-1}`, and labels are
assigned in order of first encounter while scanning vertices `0..n-1`
(so earlier-encountered components carry smaller labels).  The in-repo
code operating on that result is embedded below from the source. -/

/-- First index of the maximum of a list — the behaviour of `np.argmax`
(ties go to the earliest index; the empty array defaults to 0). -/
def argmaxFst : List ℕ → ℕ
  | [] => 0
  | x :: xs => if xs.all (· ≤ x) then 0 else argmaxFst xs + 1

/-- Sorted unique label values, modelling the first component of
`np.unique(comps[1], return_counts=True)`. -/
def connCompsUniq (labels : List ℕ) : List ℕ :=
  labels.toFinset.sort (· ≤ ·)

/-- Per-label occurrence counts, modelling the second component of
`np.unique(comps[1], return_counts=True)` (the vertex count of each
component). -/
def connCompsCounts (labels : List ℕ) : List ℕ :=
  (connCompsUniq labels).map (fun l => labels.count l)

/-- `comps_largest = np.argmax(np.unique(comps[1], return_counts=True)[1])`:
the label of the selected component. -/
def compsLargest (labels : List ℕ) : ℕ :=
  argmaxFst (connCompsCounts labels)

/-- `vtcs_remove = np.where(comps[1] != comps_largest)`: the vertex
indices outside the selected component. -/
def vtcsRemove (labels : List ℕ) : List ℕ :=
  (List.range labels.length).filter
    (fun i => labels.getD i 0 ≠ compsLargest labels)

/-- `tria_keep = np.sum(np.isin(aseg_mesh.t, vtcs_remove), axis=1) == 0;
aseg_mesh.t = aseg_mesh.t[tria_keep, :]`: keep a triangle iff none of its
three vertex indices lies in `vtcs_remove`. -/
def triaKeepFilter (labels : List ℕ) (t : List Tri) : List Tri :=
  t.filter (fun tr =>
    ([tr.t1, tr.t2, tr.t3].countP (fun x => decide (x ∈ vtcsRemove labels))) = 0)

/-- The component-selection step of `create_aseg_surface`: triangles are
filtered only when scipy reported more than one component
(`if comps[0] > 1`). -/
def keepLargestComponent (k : ℕ) (labels : List ℕ) (t : List Tri) :
    List Tri :=
  if 1 < k then triaKeepFilter labels t else t

/-- Modelled from the spec: `lapy.TriaMesh.rm_free_vertices_` (an external
library call) removes all vertices not referenced by any remaining
triangle.  The surviving vertex indices, in their original relative
order. -/
def rmFreeKeptVerts (n : ℕ) (t : List Tri) : List ℕ :=
  (List.range n).filter
    (fun i => t.any (fun tr => tr.t1 = i || tr.t2 = i || tr.t3 = i))

/-- Modelled from the spec: the new index of an original vertex after
free-vertex removal, i.e. its position in the compacted vertex list. -/
def rmFreeNewIdx (n : ℕ) (t : List Tri) (i : ℕ) : ℕ :=
  (rmFreeKeptVerts n t).indexOf i

/-- Modelled from the spec: triangles re-indexed into the compacted
vertex list by `rm_free_vertices_`. -/
def rmFreeTris (n : ℕ) (t : List Tri) : List Tri :=
  t.map (fun tr =>
    ⟨rmFreeNewIdx n t tr.t1, rmFreeNewIdx n t tr.t2, rmFreeNewIdx n t tr.t3⟩)

/-! ## The surface-extraction pipeline (`create_aseg_surface`) -/

/-- The Python exceptions relevant to the claims.  `emptyMaskError` is
the error class named by the specification's taxonomy; the source never
defines or raises it. -/
inductive PyError where
  | keyError
  | valueError
  | nameError
  | emptyMaskError
  | calledProcessError
  | otherError
deriving DecidableEq

/-- The names bound at module level in src/brainprint/surfaces.py: its
imports (`uuid`, `Path`, `sp`, `nb`, `np`, `TriaMesh`, `marching_cubes`)
and its own function definitions.  `os` is not among them. -/
def surfacesModuleGlobals : List String :=
  ["uuid", "Path", "sp", "nb", "np", "TriaMesh", "marching_cubes",
   "create_aseg_surface", "create_aseg_surfaces",
   "create_cortical_surfaces", "create_surfaces", "read_vtk",
   "surf_to_vtk"]

/-- `aseg_data_bin = np.isin(aseg.get_fdata(), indices_num).astype(np.float32)`:
the binarized mask, one rational per voxel (the 3D shape is irrelevant to
the claims and flattened). -/
def binarizeAseg (aseg : List ℚ) (indices : List ℤ) : List ℚ :=
  aseg.map (fun x => if indices.any (fun l => decide ((l : ℚ) = x)) then 1 else 0)

/-- The embedding of `create_aseg_surface` (src/brainprint/surfaces.py).

External collaborators are oracles: `mc` is `skimage.measure.marching_cubes`
(returning vertices and triangles; the coordinate transform to surface RAS
does not affect any claim and is folded into the oracle), and `conn` is
`scipy.sparse.csgraph.connected_components` on the mesh adjacency graph.

Modelled from the spec, for the external calls:
* `marching_cubes` raises `ValueError` when the level (0.5) lies outside
  the data range; for a `{0,1}` mask this happens exactly when the mask
  has no foreground voxel;
* the `TriangleMesh` invariant — every triangle index is below the vertex
  count — is enforced by the `lapy.TriaMesh` constructor, which raises
  `ValueError` otherwise.

The final VTK-export step evaluates `os.makedirs(...)`; the name `os` is
resolved against the module globals and raises `NameError` when absent. -/
def createAsegSurface (mc : List ℚ → List Vec3 × List Tri)
    (conn : List Tri → ℕ × List ℕ) (aseg : List ℚ) (indices : List ℤ) :
    Except PyError String :=
  let asegDataBin := binarizeAseg aseg indices
  if asegDataBin.all (· = 0) then Except.error PyError.valueError
  else
    let vt := mc asegDataBin
    if vt.2.any (fun tr =>
        vt.1.length ≤ tr.t1 || vt.1.length ≤ tr.t2 || vt.1.length ≤ tr.t3)
    then Except.error PyError.valueError
    else
      let comps := conn vt.2
      let keptT := keepLargestComponent comps.1 comps.2 vt.2
      let _finalT := rmFreeTris vt.1.length keptT
      if surfacesModuleGlobals.contains "os" then
        Except.ok ("surfaces/aseg.final." ++
          String.intercalate "_" (indices.map toString) ++ ".vtk")
      else Except.error PyError.nameError

/-! ## The per-structure shape-DNA loop (`_compute_brainprint`,
src/brainprint/brainprint.py lines 548-590) -/

/-- One entry of a per-structure result vector: either a numeric value or
the string `'NaN'` used by `evMat[surfaces_i] = ['NaN'] * (options["num"] + 2)`. -/
inductive EvEntry where
  | q (x : ℚ)
  | nanStr
deriving DecidableEq

/-- The NaN sentinel vector `['NaN'] * (num + 2)`. -/
def nanVec (num : ℕ) : List EvEntry :=
  List.replicate (num + 2) EvEntry.nanStr

/-- What happens while processing one structure inside the `try:` block.
`ok ev` means the body ran to completion and stored `ev` (eigenvalues
with area and volume already prepended) in `evMat`.  `raisedBefore e`
means exception `e` was raised before the `evMat[surfaces_i] = ...`
assignment (e.g. in `TriaIO.import_vtk` or `ShapeDNA.compute_shapedna`);
`raisedAfter e ev` means `e` was raised after `evMat[surfaces_i]` was
assigned `ev` (e.g. in `normalize_ev`, `reweight_ev` or the
concatenation). -/
inductive StructOutcome where
  | ok (ev : List EvEntry)
  | raisedBefore (e : PyError)
  | raisedAfter (e : PyError) (ev : List EvEntry)

/-- Python-dict assignment on an association list: overwrite the existing
binding or append a new one. -/
def dictInsert (k : String) (val : List EvEntry) :
    List (String × List EvEntry) → List (String × List EvEntry)
  | [] => [(k, val)]
  | (k', v') :: rest =>
      if k' = k then (k, val) :: rest else (k', v') :: dictInsert k val rest

/-- One iteration of the `for surfaces_i in surfaces:` loop.  The state is
`(failed, evMat)`.  Faithful to the source: only
`subprocess.CalledProcessError` is caught (any other exception
propagates, aborting the loop); a caught error sets `failed = True`
without ever resetting it; after the `try/except`, the loop evaluates
`if len(evMat[surfaces_i]) == 0 or failed:` — which raises `KeyError`
when the exception struck before `evMat[surfaces_i]` was assigned — and
replaces the entry by the NaN vector. -/
def brainprintStep (num : ℕ) (st : Bool × List (String × List EvEntry))
    (item : String × StructOutcome) :
    Except PyError (Bool × List (String × List EvEntry)) :=
  match item.2 with
  | StructOutcome.ok ev =>
      if ev.length = 0 ∨ st.1 then
        Except.ok (st.1, dictInsert item.1 (nanVec num) (dictInsert item.1 ev st.2))
      else
        Except.ok (st.1, dictInsert item.1 ev st.2)
  | StructOutcome.raisedBefore e =>
      if e = PyError.calledProcessError then Except.error PyError.keyError
      else Except.error e
  | StructOutcome.raisedAfter e ev =>
      if e = PyError.calledProcessError then
        Except.ok (true, dictInsert item.1 (nanVec num) (dictInsert item.1 ev st.2))
      else Except.error e

/-- The whole `for surfaces_i in surfaces:` loop over the per-structure
outcomes, starting from `failed = False` and an empty `evMat`. -/
def computeBrainprintLoop (num : ℕ) (items : List (String × StructOutcome)) :
    Except PyError (Bool × List (String × List EvEntry)) :=
  items.foldlM (brainprintStep num) (false, [])

/-! ## Asymmetry (`compute_asymmetry`, src/brainprint/asymmetry.py) -/

/-- A `numpy` double as relevant to the asymmetry claims: a finite value,
one of the two infinities, or NaN. -/
inductive RVal where
  | fin (q : ℚ)
  | pinf
  | ninf
  | nan
deriving DecidableEq

/-- `np.isnan` on one value. -/
def RVal.isnan : RVal → Bool
  | RVal.nan => true
  | _ => false

/-- Whether a value is finite. -/
def RVal.isfin : RVal → Bool
  | RVal.fin _ => true
  | _ => false

/-- IEEE-style subtraction on the value model. -/
def rsub : RVal → RVal → RVal
  | RVal.nan, _ => RVal.nan
  | _, RVal.nan => RVal.nan
  | RVal.fin a, RVal.fin b => RVal.fin (a - b)
  | RVal.fin _, RVal.pinf => RVal.ninf
  | RVal.fin _, RVal.ninf => RVal.pinf
  | RVal.pinf, RVal.fin _ => RVal.pinf
  | RVal.pinf, RVal.pinf => RVal.nan
  | RVal.pinf, RVal.ninf => RVal.pinf
  | RVal.ninf, RVal.fin _ => RVal.ninf
  | RVal.ninf, RVal.pinf => RVal.ninf
  | RVal.ninf, RVal.ninf => RVal.nan

/-- IEEE-style addition on the value model. -/
def radd : RVal → RVal → RVal
  | RVal.nan, _ => RVal.nan
  | _, RVal.nan => RVal.nan
  | RVal.fin a, RVal.fin b => RVal.fin (a + b)
  | RVal.fin _, RVal.pinf => RVal.pinf
  | RVal.fin _, RVal.ninf => RVal.ninf
  | RVal.pinf, RVal.fin _ => RVal.pinf
  | RVal.pinf, RVal.pinf => RVal.pinf
  | RVal.pinf, RVal.ninf => RVal.nan
  | RVal.ninf, RVal.fin _ => RVal.ninf
  | RVal.ninf, RVal.pinf => RVal.nan
  | RVal.ninf, RVal.ninf => RVal.ninf

/-- Squaring on the value model. -/
def rsq : RVal → RVal
  | RVal.nan => RVal.nan
  | RVal.fin a => RVal.fin (a * a)
  | RVal.pinf => RVal.pinf
  | RVal.ninf => RVal.pinf

/-- Square root on the value model; `sq` is the oracle for the numeric
square root on nonnegative rationals. -/
def rsqrt (sq : ℚ → ℚ) : RVal → RVal
  | RVal.nan => RVal.nan
  | RVal.pinf => RVal.pinf
  | RVal.ninf => RVal.nan
  | RVal.fin a => if a < 0 then RVal.nan else RVal.fin (sq a)

/-- Sum of a list of values. -/
def rsum (xs : List RVal) : RVal :=
  xs.foldr radd (RVal.fin 0)

/-- Modelled from the spec: `lapy.shapedna.compute_distance(a, b, dist="euc")`
(an external library call) computes the Euclidean distance
`np.linalg.norm(a - b)` between the two equal-length vectors. -/
def eucDistance (sq : ℚ → ℚ) (xs ys : List RVal) : RVal :=
  rsqrt sq (rsum ((xs.zip ys).map (fun p => rsq (rsub p.1 p.2))))

/-- The 12 fixed subcortical lateral pairs (`structures_left_right`). -/
def structuresLeftRight : List (String × String) :=
  [("Left-Striatum", "Right-Striatum"),
   ("Left-Lateral-Ventricle", "Right-Lateral-Ventricle"),
   ("Left-Cerebellum-White-Matter", "Right-Cerebellum-White-Matter"),
   ("Left-Cerebellum-Cortex", "Right-Cerebellum-Cortex"),
   ("Left-Thalamus-Proper", "Right-Thalamus-Proper"),
   ("Left-Caudate", "Right-Caudate"),
   ("Left-Putamen", "Right-Putamen"),
   ("Left-Pallidum", "Right-Pallidum"),
   ("Left-Hippocampus", "Right-Hippocampus"),
   ("Left-Amygdala", "Right-Amygdala"),
   ("Left-Accumbens-area", "Right-Accumbens-area"),
   ("Left-VentralDC", "Right-VentralDC")]

/-- The 2 cortical lateral pairs (`cortex_2d_left_right`). -/
def cortex2dLeftRight : List (String × String) :=
  [("lh-white-2d", "rh-white-2d"), ("lh-pial-2d", "rh-pial-2d")]

/-- `structures = structures_left_right; if not skip_cortex: structures
+= cortex_2d_left_right`. -/
def asymmetryStructures (skipCortex : Bool) : List (String × String) :=
  if skipCortex then structuresLeftRight
  else structuresLeftRight ++ cortex2dLeftRight

/-- The embedding of `compute_asymmetry` (src/brainprint/asymmetry.py).
`ev` maps a structure label to its processed eigenvalue vector (area and
volume at positions 0 and 1); the loop truncates with `[2:]`, tests
`np.isnan(...).any()` on both sides, stores `np.nan` under the key
`f"{left_label}_{right_label}"` when the test fires and the Euclidean
distance otherwise.  The result dictionary is represented as the
association list in insertion order (all keys are distinct, see
`compute_asymmetry_keys`). -/
def computeAsymmetry (sq : ℚ → ℚ) (ev : String → List RVal)
    (skipCortex : Bool) : List (String × RVal) :=
  (asymmetryStructures skipCortex).map (fun p =>
    (p.1 ++ "_" ++ p.2,
      if ((ev p.1).drop 2).any RVal.isnan || ((ev p.2).drop 2).any RVal.isnan
      then RVal.nan
      else eucDistance sq ((ev p.1).drop 2) ((ev p.2).drop 2)))

/-! ## Eigenvalue-file reading (`_get_ev`, src/brainprint/brainprint.py
lines 364-366) -/

/-- The snapping step applied to the parsed eigenvalue list:
`if abs(float(evals[0])) < 10e-16: evals[0] = "0"`.  Note the threshold
literal is `10e-16`, i.e. `10 * 10 ^ (-16) = 10 ^ (-15)`.  Entries are
modelled by the rationals the strings denote. -/
def getEvSnapFirst (evals : List ℚ) : List ℚ :=
  match evals with
  | [] => []
  | e :: rest => if |e| < 10 / 10 ^ 16 then 0 :: rest else e :: rest

/-- The tail of `_get_ev`: snap the first eigenvalue, then
`evals.insert(0, volume); evals.insert(0, area)`. -/
def getEvAssemble (area volume : ℚ) (evals : List ℚ) : List ℚ :=
  area :: volume :: getEvSnapFirst evals

/-! ## Concrete meshes used by the witnesses -/

/-- A single right triangle in the plane; its cross product is `(0,0,1)`,
so with the identity square-root oracle `volRaw = 2`. -/
def wMeshV : List Vec3 :=
  [⟨0, 0, 0⟩, ⟨1, 0, 0⟩, ⟨0, 1, 0⟩]

/-- The triangle list for `wMeshV`. -/
def wMeshT : List Tri :=
  [⟨0, 1, 2⟩]

/-- Vertices of a mesh whose second triangle is degenerate (three
collinear points). -/
def wDegV : List Vec3 :=
  [⟨0, 0, 0⟩, ⟨1, 0, 0⟩, ⟨2, 0, 0⟩, ⟨0, 1, 0⟩]

/-- Triangles for `wDegV`: the first is non-degenerate, the second is
collinear (zero area). -/
def wDegT : List Tri :=
  [⟨0, 1, 3⟩, ⟨0, 1, 2⟩]

/-! ## Theorems -/

theorem sum_ite_and_eq {n b : ℕ} (hb : b < n) (i a : ℕ) (c : ℚ) :
    (∑ j ∈ Finset.range n, if i = a ∧ j = b then c else 0) =
      if i = a then c else 0 := by
  by_cases h : i = a
  · simp [h, Finset.sum_ite_eq' (Finset.range n) b (fun _ => c),
      Finset.mem_range, hb]
  · simp [h]

theorem localA_row_sum (sq : ℚ → ℚ) (v : List Vec3) (t : List Tri)
    (tr : Tri) (n i : ℕ) (h1 : tr.t1 < n) (h2 : tr.t2 < n)
    (h3 : tr.t3 < n) :
    ∑ j ∈ Finset.range n, localA sq v t tr i j = 0 := by
  simp only [localA, Finset.sum_add_distrib, sum_ite_and_eq h1,
    sum_ite_and_eq h2, sum_ite_and_eq h3]
  by_cases e1 : i = tr.t1 <;> by_cases e2 : i = tr.t2 <;>
    by_cases e3 : i = tr.t3 <;>
    simp_all [a11, a22, a33] <;> ring

theorem stiffAAux_row_sum (sq : ℚ → ℚ) (v : List Vec3) (t : List Tri)
    (n i : ℕ) :
    ∀ tsum : List Tri,
      (∀ tr ∈ tsum, tr.t1 < n ∧ tr.t2 < n ∧ tr.t3 < n) →
      ∑ j ∈ Finset.range n, stiffAAux sq v t tsum i j = 0 := by
  intro tsum
  induction tsum with
  | nil => intro _; simp [stiffAAux]
  | cons tr rest ih =>
    intro h
    have htr := h tr (List.mem_cons_self tr rest)
    have hsum := ih (fun x hx => h x (List.mem_cons_of_mem tr hx))
    simp only [stiffAAux, List.map_cons, List.sum_cons] at hsum ⊢
    rw [Finset.sum_add_distrib,
      localA_row_sum sq v t tr n i htr.1 htr.2.1 htr.2.2, hsum]
    simp

/-- C1: for every triangle mesh, every row of the stiffness matrix `A`
assembled by `computeABtria` sums to zero, because each triangle's local
diagonal entries are the negated sums of its off-diagonal cotangent
contributions (`A11 = -A12 - A31`, etc.); consequently each diagonal
entry equals minus the sum of the off-diagonal entries of its row, and
the constant vector lies in the kernel of `A`. -/
theorem computeABtria_stiffness_row_sum_zero (sq : ℚ → ℚ)
    (v : List Vec3) (t : List Tri) (n i : ℕ)
    (ht : ∀ tr ∈ t, tr.t1 < n ∧ tr.t2 < n ∧ tr.t3 < n) (hi : i < n) :
    (∑ j ∈ Finset.range n, stiffA sq v t i j = 0) ∧
      stiffA sq v t i i =
        -∑ j ∈ (Finset.range n).erase i, stiffA sq v t i j := by
  have hrow : ∑ j ∈ Finset.range n, stiffA sq v t i j = 0 :=
    stiffAAux_row_sum sq v t n i t ht
  refine ⟨hrow, ?_⟩
  have hmem : i ∈ Finset.range n := Finset.mem_range.mpr hi
  have hsplit :=
    Finset.add_sum_erase (Finset.range n) (fun j => stiffA sq v t i j) hmem
  simp only at hsplit
  linarith [hsplit, hrow]

/-- Witness for C1 at a concrete one-triangle mesh with the identity
square-root oracle. -/
theorem computeABtria_stiffness_row_sum_zero_witness :
    (∀ tr ∈ wMeshT, tr.t1 < 3 ∧ tr.t2 < 3 ∧ tr.t3 < 3) ∧ 0 < 3 ∧
      ((∑ j ∈ Finset.range 3, stiffA (fun q => q) wMeshV wMeshT 0 j = 0) ∧
        stiffA (fun q => q) wMeshV wMeshT 0 0 =
          -∑ j ∈ (Finset.range 3).erase 0,
            stiffA (fun q => q) wMeshV wMeshT 0 j) :=
  ⟨by decide, by decide,
    computeABtria_stiffness_row_sum_zero (fun q => q) wMeshV wMeshT 3 0
      (by decide) (by decide)⟩

/-- C2: with `lump = False`, each triangle contributes `vol/48` to all
six ordered off-diagonal index pairs of its three (distinct) vertices and
`vol/24` to each of its three diagonal entries; with `lump = True`, each
triangle contributes only `vol/12` per diagonal entry and the assembled
matrix `B` has no off-diagonal entries at all; `vol` squared is 16 times
the squared triangle area `|cr|^2 / 4` whenever the square-root oracle is
exact on `|cr|^2`. -/
theorem computeABtria_mass_matrix (sq : ℚ → ℚ) (v : List Vec3)
    (t : List Tri) (tr : Tri)
    (hd : tr.t1 ≠ tr.t2 ∧ tr.t2 ≠ tr.t3 ∧ tr.t1 ≠ tr.t3) :
    (localB sq v t tr tr.t1 tr.t2 = volFixed sq v t tr / 48 ∧
      localB sq v t tr tr.t2 tr.t1 = volFixed sq v t tr / 48 ∧
      localB sq v t tr tr.t2 tr.t3 = volFixed sq v t tr / 48 ∧
      localB sq v t tr tr.t3 tr.t2 = volFixed sq v t tr / 48 ∧
      localB sq v t tr tr.t3 tr.t1 = volFixed sq v t tr / 48 ∧
      localB sq v t tr tr.t1 tr.t3 = volFixed sq v t tr / 48) ∧
    (localB sq v t tr tr.t1 tr.t1 = volFixed sq v t tr / 24 ∧
      localB sq v t tr tr.t2 tr.t2 = volFixed sq v t tr / 24 ∧
      localB sq v t tr tr.t3 tr.t3 = volFixed sq v t tr / 24) ∧
    (∀ i j : ℕ, i ≠ j → massB sq v t true i j = 0) ∧
    (localBlump sq v t tr tr.t1 tr.t1 = volFixed sq v t tr / 12 ∧
      localBlump sq v t tr tr.t2 tr.t2 = volFixed sq v t tr / 12 ∧
      localBlump sq v t tr tr.t3 tr.t3 = volFixed sq v t tr / 12) ∧
    (sq (vdot (crossTri v tr) (crossTri v tr)) ^ 2 =
        vdot (crossTri v tr) (crossTri v tr) →
      volRaw sq v tr ^ 2 = 16 * (vdot (crossTri v tr) (crossTri v tr) / 4)) := by
  obtain ⟨h12, h23, h13⟩ := hd
  have h21 := h12.symm
  have h32 := h23.symm
  have h31 := h13.symm
  refine ⟨⟨?_, ?_, ?_, ?_, ?_, ?_⟩, ⟨?_, ?_, ?_⟩, ?_, ⟨?_, ?_, ?_⟩, ?_⟩
  · simp [localB, h12, h23, h13, h21, h32, h31]
  · simp [localB, h12, h23, h13, h21, h32, h31]
  · simp [localB, h12, h23, h13, h21, h32, h31]
  · simp [localB, h12, h23, h13, h21, h32, h31]
  · simp [localB, h12, h23, h13, h21, h32, h31]
  · simp [localB, h12, h23, h13, h21, h32, h31]
  · simp [localB, h12, h23, h13, h21, h32, h31]
  · simp [localB, h12, h23, h13, h21, h32, h31]
  · simp [localB, h12, h23, h13, h21, h32, h31]
  · intro i j hij
    simp only [massB, if_pos]
    refine List.sum_eq_zero ?_
    intro x hx
    rcases List.mem_map.mp hx with ⟨tr2, _, rfl⟩
    simp only [localBlump]
    rw [if_neg (fun h => hij (h.1.trans h.2.symm)),
      if_neg (fun h => hij (h.1.trans h.2.symm)),
      if_neg (fun h => hij (h.1.trans h.2.symm))]
    ring
  · simp [localBlump, h12, h23, h13, h21, h32, h31]
  · simp [localBlump, h12, h23, h13, h21, h32, h31]
  · simp [localBlump, h12, h23, h13, h21, h32, h31]
  · intro hsq
    have hexp : volRaw sq v tr ^ 2 =
        4 * sq (vdot (crossTri v tr) (crossTri v tr)) ^ 2 := by
      rw [volRaw]; ring
    rw [hexp, hsq]; ring

/-- Witness for C2 at the concrete one-triangle mesh with the identity
square-root oracle. -/
theorem computeABtria_mass_matrix_witness :
    ((0 : ℕ) ≠ 1 ∧ (1 : ℕ) ≠ 2 ∧ (0 : ℕ) ≠ 2) ∧
      ((localB (fun q => q) wMeshV wMeshT ⟨0, 1, 2⟩ 0 1 =
          volFixed (fun q => q) wMeshV wMeshT ⟨0, 1, 2⟩ / 48 ∧
        localB (fun q => q) wMeshV wMeshT ⟨0, 1, 2⟩ 1 0 =
          volFixed (fun q => q) wMeshV wMeshT ⟨0, 1, 2⟩ / 48 ∧
        localB (fun q => q) wMeshV wMeshT ⟨0, 1, 2⟩ 1 2 =
          volFixed (fun q => q) wMeshV wMeshT ⟨0, 1, 2⟩ / 48 ∧
        localB (fun q => q) wMeshV wMeshT ⟨0, 1, 2⟩ 2 1 =
          volFixed (fun q => q) wMeshV wMeshT ⟨0, 1, 2⟩ / 48 ∧
        localB (fun q => q) wMeshV wMeshT ⟨0, 1, 2⟩ 2 0 =
          volFixed (fun q => q) wMeshV wMeshT ⟨0, 1, 2⟩ / 48 ∧
        localB (fun q => q) wMeshV wMeshT ⟨0, 1, 2⟩ 0 2 =
          volFixed (fun q => q) wMeshV wMeshT ⟨0, 1, 2⟩ / 48) ∧
      (localB (fun q => q) wMeshV wMeshT ⟨0, 1, 2⟩ 0 0 =
          volFixed (fun q => q) wMeshV wMeshT ⟨0, 1, 2⟩ / 24 ∧
        localB (fun q => q) wMeshV wMeshT ⟨0, 1, 2⟩ 1 1 =
          volFixed (fun q => q) wMeshV wMeshT ⟨0, 1, 2⟩ / 24 ∧
        localB (fun q => q) wMeshV wMeshT ⟨0, 1, 2⟩ 2 2 =
          volFixed (fun q => q) wMeshV wMeshT ⟨0, 1, 2⟩ / 24) ∧
      (∀ i j : ℕ, i ≠ j → massB (fun q => q) wMeshV wMeshT true i j = 0) ∧
      (localBlump (fun q => q) wMeshV wMeshT ⟨0, 1, 2⟩ 0 0 =
          volFixed (fun q => q) wMeshV wMeshT ⟨0, 1, 2⟩ / 12 ∧
        localBlump (fun q => q) wMeshV wMeshT ⟨0, 1, 2⟩ 1 1 =
          volFixed (fun q => q) wMeshV wMeshT ⟨0, 1, 2⟩ / 12 ∧
        localBlump (fun q => q) wMeshV wMeshT ⟨0, 1, 2⟩ 2 2 =
          volFixed (fun q => q) wMeshV wMeshT ⟨0, 1, 2⟩ / 12) ∧
      ((fun q => q) (vdot (crossTri wMeshV ⟨0, 1, 2⟩) (crossTri wMeshV ⟨0, 1, 2⟩)) ^ 2 =
          vdot (crossTri wMeshV ⟨0, 1, 2⟩) (crossTri wMeshV ⟨0, 1, 2⟩) →
        volRaw (fun q => q) wMeshV ⟨0, 1, 2⟩ ^ 2 =
          16 * (vdot (crossTri wMeshV ⟨0, 1, 2⟩) (crossTri wMeshV ⟨0, 1, 2⟩) / 4))) :=
  ⟨by decide,
    computeABtria_mass_matrix (fun q => q) wMeshV wMeshT ⟨0, 1, 2⟩
      ⟨by decide, by decide, by decide⟩⟩

/-- C3: every triangle whose raw `vol` (twice the cross-product norm,
i.e. four times the area) falls below machine epsilon has its `vol`
replaced by `0.0001` times the mean of the raw per-triangle `vol` values
of the whole mesh before any division by `vol` (the cotangent values
divide by the substituted value); triangles with `vol` at or above
machine epsilon are untouched, and no triangle is discarded (the `vol`
array keeps one entry per triangle). -/
theorem computeABtria_degenerate_vol_substitution (sq : ℚ → ℚ)
    (v : List Vec3) (t : List Tri) (tr : Tri) (_htr : tr ∈ t)
    (hdeg : volRaw sq v tr < floatEps) :
    volFixed sq v t tr =
      (1 / 10000) * ((t.map (volRaw sq v)).sum / (t.length : ℚ)) ∧
    a12 sq v t tr = vdot (edgeV3mV2 v tr) (edgeV1mV3 v tr) /
      ((1 / 10000) * ((t.map (volRaw sq v)).sum / (t.length : ℚ))) ∧
    a23 sq v t tr = vdot (edgeV1mV3 v tr) (edgeV2mV1 v tr) /
      ((1 / 10000) * ((t.map (volRaw sq v)).sum / (t.length : ℚ))) ∧
    a31 sq v t tr = vdot (edgeV2mV1 v tr) (edgeV3mV2 v tr) /
      ((1 / 10000) * ((t.map (volRaw sq v)).sum / (t.length : ℚ))) ∧
    (rawVols sq v t).length = t.length ∧
    (∀ tr2 ∈ t, ¬volRaw sq v tr2 < floatEps →
      volFixed sq v t tr2 = volRaw sq v tr2) := by
  have hfix : volFixed sq v t tr =
      (1 / 10000) * ((t.map (volRaw sq v)).sum / (t.length : ℚ)) := by
    simp [volFixed, hdeg, volMeanSub, rawVols]
  refine ⟨hfix, ?_, ?_, ?_, ?_, ?_⟩
  · rw [a12, hfix]
  · rw [a23, hfix]
  · rw [a31, hfix]
  · simp [rawVols]
  · intro tr2 _ h2
    simp [volFixed, h2]

/-- Witness for C3 at a concrete two-triangle mesh whose second triangle
is degenerate, with the identity square-root oracle. -/
theorem computeABtria_degenerate_vol_substitution_witness :
    ((⟨0, 1, 2⟩ : Tri) ∈ wDegT ∧
      volRaw (fun q => q) wDegV ⟨0, 1, 2⟩ < floatEps) ∧
      (volFixed (fun q => q) wDegV wDegT ⟨0, 1, 2⟩ =
        (1 / 10000) * ((wDegT.map (volRaw (fun q => q) wDegV)).sum /
          (wDegT.length : ℚ)) ∧
      a12 (fun q => q) wDegV wDegT ⟨0, 1, 2⟩ =
        vdot (edgeV3mV2 wDegV ⟨0, 1, 2⟩) (edgeV1mV3 wDegV ⟨0, 1, 2⟩) /
          ((1 / 10000) * ((wDegT.map (volRaw (fun q => q) wDegV)).sum /
            (wDegT.length : ℚ))) ∧
      a23 (fun q => q) wDegV wDegT ⟨0, 1, 2⟩ =
        vdot (edgeV1mV3 wDegV ⟨0, 1, 2⟩) (edgeV2mV1 wDegV ⟨0, 1, 2⟩) /
          ((1 / 10000) * ((wDegT.map (volRaw (fun q => q) wDegV)).sum /
            (wDegT.length : ℚ))) ∧
      a31 (fun q => q) wDegV wDegT ⟨0, 1, 2⟩ =
        vdot (edgeV2mV1 wDegV ⟨0, 1, 2⟩) (edgeV3mV2 wDegV ⟨0, 1, 2⟩) /
          ((1 / 10000) * ((wDegT.map (volRaw (fun q => q) wDegV)).sum /
            (wDegT.length : ℚ))) ∧
      (rawVols (fun q => q) wDegV wDegT).length = wDegT.length ∧
      (∀ tr2 ∈ wDegT, ¬volRaw (fun q => q) wDegV tr2 < floatEps →
        volFixed (fun q => q) wDegV wDegT tr2 =
          volRaw (fun q => q) wDegV tr2)) :=
  ⟨⟨by decide,
      by norm_num [volRaw, crossTri, edgeV3mV2, edgeV1mV3, vcross, vsub,
        vdot, getVertex, wDegV, floatEps]⟩,
    computeABtria_degenerate_vol_substitution (fun q => q) wDegV wDegT
      ⟨0, 1, 2⟩ (by decide)
      (by norm_num [volRaw, crossTri, edgeV3mV2, edgeV1mV3, vcross, vsub,
        vdot, getVertex, wDegV, floatEps])⟩

theorem argmaxFst_lt_length : ∀ l : List ℕ, l ≠ [] → argmaxFst l < l.length := by
  intro l
  induction l with
  | nil => intro h; exact absurd rfl h
  | cons x xs ih =>
    intro _
    by_cases hall : xs.all (· ≤ x)
    · simp [argmaxFst, hall]
    · have hxs : xs ≠ [] := by
        intro he
        rw [he] at hall
        simp at hall
      simp only [argmaxFst, if_neg hall, List.length_cons]
      exact Nat.succ_lt_succ (ih hxs)

theorem argmaxFst_le : ∀ (l : List ℕ) (j : ℕ), j < l.length →
    l.getD j 0 ≤ l.getD (argmaxFst l) 0 := by
  intro l
  induction l with
  | nil => intro j hj; simp at hj
  | cons x xs ih =>
    intro j hj
    by_cases hall : xs.all (· ≤ x)
    · rw [argmaxFst, if_pos hall]
      match j with
      | 0 => simp
      | Nat.succ j =>
        simp only [List.getD_cons_succ, List.getD_cons_zero]
        have hj' : j < xs.length := by simpa using hj
        have hmem : xs.getD j 0 ∈ xs := by
          rw [List.getD_eq_getElem xs 0 hj']
          exact List.getElem_mem hj'
        exact of_decide_eq_true (List.all_eq_true.mp hall _ hmem)
    · rw [argmaxFst, if_neg hall]
      match j with
      | 0 =>
        simp only [List.getD_cons_zero, List.getD_cons_succ]
        rw [List.all_eq_true] at hall
        push_neg at hall
        obtain ⟨y, hy, hne⟩ := hall
        have hxy : x < y := lt_of_not_le (by simpa using hne)
        obtain ⟨n, hn⟩ := List.mem_iff_get.mp hy
        have h1 : xs.getD (↑n) 0 ≤ xs.getD (argmaxFst xs) 0 :=
          ih (↑n) n.isLt
        have h2 : xs.getD (↑n) 0 = y := by
          rw [List.getD_eq_getElem xs 0 n.isLt]
          simpa using hn
        have hcalc : x < xs.getD (argmaxFst xs) 0 := by
          calc x < y := hxy
            _ = xs.getD (↑n) 0 := h2.symm
            _ ≤ xs.getD (argmaxFst xs) 0 := h1
        exact le_of_lt hcalc
      | Nat.succ j =>
        simp only [List.getD_cons_succ]
        exact ih j (by simpa using hj)

theorem lt_argmaxFst_of_not_all_le {x : ℕ} {xs : List ℕ}
    (h : ¬xs.all (· ≤ x) = true) : x < xs.getD (argmaxFst xs) 0 := by
  rw [List.all_eq_true] at h
  push_neg at h
  obtain ⟨y, hy, hne⟩ := h
  have hxy : x < y := lt_of_not_le (by simpa using hne)
  obtain ⟨n, hn⟩ := List.mem_iff_get.mp hy
  have h1 : xs.getD (↑n) 0 ≤ xs.getD (argmaxFst xs) 0 := argmaxFst_le xs (↑n) n.isLt
  have h2 : xs.getD (↑n) 0 = y := by
    rw [List.getD_eq_getElem xs 0 n.isLt]
    simpa using hn
  calc x < y := hxy
    _ = xs.getD (↑n) 0 := h2.symm
    _ ≤ xs.getD (argmaxFst xs) 0 := h1

theorem argmaxFst_first : ∀ (l : List ℕ) (j : ℕ), j < argmaxFst l →
    l.getD j 0 < l.getD (argmaxFst l) 0 := by
  intro l
  induction l with
  | nil => intro j hj; simp [argmaxFst] at hj
  | cons x xs ih =>
    intro j hj
    by_cases hall : xs.all (· ≤ x)
    · rw [argmaxFst, if_pos hall] at hj
      exact absurd hj (Nat.not_lt_zero j)
    · rw [argmaxFst, if_neg hall] at hj ⊢
      match j with
      | 0 =>
        simp only [List.getD_cons_zero, List.getD_cons_succ]
        exact lt_argmaxFst_of_not_all_le hall
      | Nat.succ j =>
        simp only [List.getD_cons_succ]
        exact ih j (Nat.lt_of_succ_lt_succ hj)

theorem connCompsUniq_eq_range {k : ℕ} {labels : List ℕ}
    (hk : labels.toFinset = Finset.range k) :
    connCompsUniq labels = List.range k := by
  rw [connCompsUniq, hk]
  exact Finset.sort_range k

theorem connCompsCounts_length {k : ℕ} {labels : List ℕ}
    (hk : labels.toFinset = Finset.range k) :
    (connCompsCounts labels).length = k := by
  rw [connCompsCounts, connCompsUniq_eq_range hk]
  simp

theorem connCompsCounts_getD {k : ℕ} {labels : List ℕ}
    (hk : labels.toFinset = Finset.range k) {l : ℕ} (hl : l < k) :
    (connCompsCounts labels).getD l 0 = labels.count l := by
  rw [connCompsCounts, connCompsUniq_eq_range hk]
  rw [List.getD_eq_getElem _ _ (by simpa using hl)]
  simp

theorem notMem_vtcsRemove {labels : List ℕ} {x : ℕ}
    (hx : x < labels.length) :
    x ∉ vtcsRemove labels ↔ labels.getD x 0 = compsLargest labels := by
  simp [vtcsRemove, List.mem_filter, List.mem_range, hx]

theorem getD_indexOf {l : List ℕ} {i : ℕ} (h : i ∈ l) :
    l.getD (l.indexOf i) 0 = i := by
  induction l with
  | nil => simp at h
  | cons a l ih =>
    by_cases ha : a = i
    · subst ha
      rw [List.indexOf_cons_self]
      simp
    · rw [List.indexOf_cons_ne _ ha]
      simp only [List.getD_cons_succ]
      refine ih ?_
      rcases List.mem_cons.mp h with h1 | h1
      · exact absurd h1.symm ha
      · exact h1

/-- C4: when scipy reports more than one connected component, the
cleaning step of `create_aseg_surface` selects the label whose component
has the greatest vertex count, with ties broken in favour of the smaller
label (labels are assigned in order of first encounter, so the
first-encountered component wins); a triangle survives iff all three of
its vertices carry the selected label; and free-vertex removal keeps the
surviving vertex indices in their original relative order (the compacted
list is strictly increasing) while the new index of each kept vertex
points back at it. -/
theorem create_aseg_surface_largest_component (k : ℕ) (labels : List ℕ)
    (t : List Tri) (hk : labels.toFinset = Finset.range k) (h2 : 1 < k)
    (ht : ∀ tr ∈ t, tr.t1 < labels.length ∧ tr.t2 < labels.length ∧
      tr.t3 < labels.length) :
    compsLargest labels < k ∧
    (∀ l < k, l ≠ compsLargest labels →
      labels.count l < labels.count (compsLargest labels) ∨
        (labels.count l = labels.count (compsLargest labels) ∧
          compsLargest labels < l)) ∧
    (∀ tr ∈ t, tr ∈ keepLargestComponent k labels t ↔
      (labels.getD tr.t1 0 = compsLargest labels ∧
        labels.getD tr.t2 0 = compsLargest labels ∧
        labels.getD tr.t3 0 = compsLargest labels)) ∧
    List.Sorted (· < ·)
      (rmFreeKeptVerts labels.length (keepLargestComponent k labels t)) ∧
    (∀ i ∈ rmFreeKeptVerts labels.length (keepLargestComponent k labels t),
      (rmFreeKeptVerts labels.length
        (keepLargestComponent k labels t)).getD
          (rmFreeNewIdx labels.length (keepLargestComponent k labels t) i)
          0 = i) := by
  have hclen : (connCompsCounts labels).length = k := connCompsCounts_length hk
  have hLlt : compsLargest labels < k := by
    have hne : connCompsCounts labels ≠ [] := by
      intro he
      rw [he] at hclen
      simp at hclen
      omega
    have := argmaxFst_lt_length (connCompsCounts labels) hne
    rw [hclen] at this
    exact this
  refine ⟨hLlt, ?_, ?_, ?_, ?_⟩
  · intro l hl hne
    have hle : (connCompsCounts labels).getD l 0 ≤
        (connCompsCounts labels).getD (argmaxFst (connCompsCounts labels)) 0 :=
      argmaxFst_le (connCompsCounts labels) l (by rw [hclen]; exact hl)
    rw [connCompsCounts_getD hk hl] at hle
    have hle2 : labels.count l ≤ labels.count (compsLargest labels) := by
      have := connCompsCounts_getD hk hLlt
      rw [compsLargest] at this ⊢
      rw [this] at hle
      exact hle
    rcases lt_or_eq_of_le hle2 with hlt | heq
    · exact Or.inl hlt
    · refine Or.inr ⟨heq, ?_⟩
      by_contra hnot
      have hlL : l < compsLargest labels := by omega
      have hstrict := argmaxFst_first (connCompsCounts labels) l hlL
      rw [connCompsCounts_getD hk hl] at hstrict
      have hgetL : (connCompsCounts labels).getD
          (argmaxFst (connCompsCounts labels)) 0 =
            labels.count (compsLargest labels) := by
        have := connCompsCounts_getD hk hLlt
        rw [compsLargest] at this
        exact this
      rw [hgetL] at hstrict
      omega
  · intro tr htr2
    obtain ⟨hx1, hx2, hx3⟩ := ht tr htr2
    rw [keepLargestComponent, if_pos h2, triaKeepFilter, List.mem_filter]
    simp only [htr2, true_and, decide_eq_true_eq, List.countP_eq_zero,
      List.mem_cons, List.not_mem_nil, or_false]
    constructor
    · intro h
      refine ⟨(notMem_vtcsRemove hx1).mp ?_, (notMem_vtcsRemove hx2).mp ?_,
        (notMem_vtcsRemove hx3).mp ?_⟩
      · exact h tr.t1 (Or.inl rfl)
      · exact h tr.t2 (Or.inr (Or.inl rfl))
      · exact h tr.t3 (Or.inr (Or.inr rfl))
    · rintro ⟨e1, e2, e3⟩ x hx
      rcases hx with rfl | rfl | rfl
      · exact (notMem_vtcsRemove hx1).mpr e1
      · exact (notMem_vtcsRemove hx2).mpr e2
      · exact (notMem_vtcsRemove hx3).mpr e3
  · exact (List.sorted_lt_range labels.length).filter _
  · intro i hi
    exact getD_indexOf hi

/-- Witness for C4 on a concrete two-component mesh (two disjoint
triangles of three vertices each; the tie is broken in favour of the
first-encountered component, label 0). -/
theorem create_aseg_surface_largest_component_witness :
    (([0, 0, 0, 1, 1, 1] : List ℕ).toFinset = Finset.range 2 ∧ 1 < 2 ∧
      (∀ tr ∈ ([⟨0, 1, 2⟩, ⟨3, 4, 5⟩] : List Tri), tr.t1 < 6 ∧ tr.t2 < 6 ∧
        tr.t3 < 6)) ∧
      (compsLargest [0, 0, 0, 1, 1, 1] < 2 ∧
      (∀ l < 2, l ≠ compsLargest [0, 0, 0, 1, 1, 1] →
        ([0, 0, 0, 1, 1, 1] : List ℕ).count l <
            ([0, 0, 0, 1, 1, 1] : List ℕ).count
              (compsLargest [0, 0, 0, 1, 1, 1]) ∨
          (([0, 0, 0, 1, 1, 1] : List ℕ).count l =
              ([0, 0, 0, 1, 1, 1] : List ℕ).count
                (compsLargest [0, 0, 0, 1, 1, 1]) ∧
            compsLargest [0, 0, 0, 1, 1, 1] < l)) ∧
      (∀ tr ∈ ([⟨0, 1, 2⟩, ⟨3, 4, 5⟩] : List Tri),
        tr ∈ keepLargestComponent 2 [0, 0, 0, 1, 1, 1]
            [⟨0, 1, 2⟩, ⟨3, 4, 5⟩] ↔
          (([0, 0, 0, 1, 1, 1] : List ℕ).getD tr.t1 0 =
              compsLargest [0, 0, 0, 1, 1, 1] ∧
            ([0, 0, 0, 1, 1, 1] : List ℕ).getD tr.t2 0 =
              compsLargest [0, 0, 0, 1, 1, 1] ∧
            ([0, 0, 0, 1, 1, 1] : List ℕ).getD tr.t3 0 =
              compsLargest [0, 0, 0, 1, 1, 1])) ∧
      List.Sorted (· < ·)
        (rmFreeKeptVerts 6 (keepLargestComponent 2 [0, 0, 0, 1, 1, 1]
          [⟨0, 1, 2⟩, ⟨3, 4, 5⟩])) ∧
      (∀ i ∈ rmFreeKeptVerts 6 (keepLargestComponent 2 [0, 0, 0, 1, 1, 1]
          [⟨0, 1, 2⟩, ⟨3, 4, 5⟩]),
        (rmFreeKeptVerts 6 (keepLargestComponent 2 [0, 0, 0, 1, 1, 1]
          [⟨0, 1, 2⟩, ⟨3, 4, 5⟩])).getD
            (rmFreeNewIdx 6 (keepLargestComponent 2 [0, 0, 0, 1, 1, 1]
              [⟨0, 1, 2⟩, ⟨3, 4, 5⟩]) i) 0 = i)) :=
  ⟨⟨by decide, by decide, by decide⟩,
    create_aseg_surface_largest_component 2 [0, 0, 0, 1, 1, 1]
      [⟨0, 1, 2⟩, ⟨3, 4, 5⟩] (by decide) (by decide) (by decide)⟩

/-- C5 (evaluation of the code at the failing inputs): the structure loop
of `_compute_brainprint` does not implement per-structure error
isolation.  (i) When structure "B" raises `subprocess.CalledProcessError`
after its `evMat` assignment, the sticky `failed` flag — never reset —
turns the subsequent, successful structure "C" into a NaN vector as
well.  (ii) Any exception other than `CalledProcessError` propagates and
aborts the whole batch.  (iii) A `CalledProcessError` raised before the
`evMat[surfaces_i]` assignment aborts the batch with `KeyError` at
`len(evMat[surfaces_i])`. -/
theorem compute_brainprint_failure_handling :
    computeBrainprintLoop 1
        [("A", StructOutcome.ok [EvEntry.q 1, EvEntry.q 1, EvEntry.q 1]),
         ("B", StructOutcome.raisedAfter PyError.calledProcessError
            [EvEntry.q 1]),
         ("C", StructOutcome.ok [EvEntry.q 1, EvEntry.q 1, EvEntry.q 1])] =
      Except.ok (true,
        [("A", [EvEntry.q 1, EvEntry.q 1, EvEntry.q 1]),
         ("B", nanVec 1), ("C", nanVec 1)]) ∧
    computeBrainprintLoop 1
        [("A", StructOutcome.raisedBefore PyError.otherError)] =
      Except.error PyError.otherError ∧
    computeBrainprintLoop 1
        [("A", StructOutcome.ok [EvEntry.q 1, EvEntry.q 1, EvEntry.q 1]),
         ("B", StructOutcome.raisedAfter PyError.otherError [EvEntry.q 1])] =
      Except.error PyError.otherError ∧
    computeBrainprintLoop 1
        [("A", StructOutcome.raisedBefore PyError.calledProcessError)] =
      Except.error PyError.keyError := by
  refine ⟨rfl, rfl, rfl, rfl⟩

/-- C6 counterexample: with a positive infinity (a non-finite, non-NaN
value) in the left truncated eigenvalue vector, `compute_asymmetry` does
not emit the NaN sentinel — `np.isnan` only fires on NaN — and instead
stores the computed distance, here `inf`. -/
theorem compute_asymmetry_inf_counterexample :
    ("Left-Striatum_Right-Striatum", RVal.pinf) ∈
        computeAsymmetry (fun q => q)
          (fun s => if s = "Left-Striatum"
            then [RVal.fin 1, RVal.fin 1, RVal.pinf]
            else [RVal.fin 1, RVal.fin 1, RVal.fin 0]) true ∧
      RVal.pinf ≠ RVal.nan ∧ RVal.pinf.isfin = false :=
  ⟨List.mem_map.mpr ⟨("Left-Striatum", "Right-Striatum"), by decide, rfl⟩,
    by decide, by decide⟩

theorem any_isnan_eq_false_of_all_isfin {xs : List RVal}
    (h : xs.all RVal.isfin = true) : xs.any RVal.isnan = false := by
  rw [List.any_eq_false]
  intro x hx
  have := List.all_eq_true.mp h x hx
  cases x <;> simp_all [RVal.isfin, RVal.isnan]

theorem rsum_sq_diff_self (xs : List RVal)
    (hfin : xs.all RVal.isfin = true) :
    rsum ((xs.zip xs).map (fun p => rsq (rsub p.1 p.2))) = RVal.fin 0 := by
  induction xs with
  | nil => rfl
  | cons a xs ih =>
    rw [List.all_cons, Bool.and_eq_true] at hfin
    obtain ⟨ha, hxs⟩ := hfin
    cases a with
    | fin q =>
      have htail := ih hxs
      simp only [List.zip_cons_cons, List.map_cons, rsum,
        List.foldr_cons] at htail ⊢
      rw [htail]
      show radd (rsq (rsub (RVal.fin q) (RVal.fin q))) (RVal.fin 0) =
        RVal.fin 0
      simp [rsub, rsq, radd]
    | pinf => simp [RVal.isfin] at ha
    | ninf => simp [RVal.isfin] at ha
    | nan => simp [RVal.isfin] at ha

theorem eucDistance_self (sq : ℚ → ℚ) (xs : List RVal)
    (hfin : xs.all RVal.isfin = true) :
    eucDistance sq xs xs = RVal.fin (sq 0) := by
  rw [eucDistance, rsum_sq_diff_self xs hfin]
  simp [rsqrt]

/-- C6 (amended): `compute_asymmetry` emits the NaN sentinel for a pair
exactly when either side's truncated eigenvalue vector contains NaN
(`np.isnan`); non-finite but non-NaN values (infinities) flow into the
Euclidean distance instead.  No pair raises: every declared pair yields
an entry (the result has one entry per pair), the entry is the Euclidean
distance when no NaN is present, and identical all-finite vectors give
distance 0. -/
theorem compute_asymmetry_nan_sentinel (sq : ℚ → ℚ)
    (ev : String → List RVal) (sc : Bool) (p : String × String)
    (hp : p ∈ asymmetryStructures sc) :
    (computeAsymmetry sq ev sc).length = (asymmetryStructures sc).length ∧
    ((((ev p.1).drop 2).any RVal.isnan = true ∨
        ((ev p.2).drop 2).any RVal.isnan = true) →
      (p.1 ++ "_" ++ p.2, RVal.nan) ∈ computeAsymmetry sq ev sc) ∧
    (((ev p.1).drop 2).any RVal.isnan = false →
      ((ev p.2).drop 2).any RVal.isnan = false →
      (p.1 ++ "_" ++ p.2,
        eucDistance sq ((ev p.1).drop 2) ((ev p.2).drop 2)) ∈
          computeAsymmetry sq ev sc) ∧
    (ev p.1 = ev p.2 → ((ev p.1).drop 2).all RVal.isfin = true →
      sq 0 = 0 →
      (p.1 ++ "_" ++ p.2, RVal.fin 0) ∈ computeAsymmetry sq ev sc) := by
  refine ⟨by simp [computeAsymmetry], ?_, ?_, ?_⟩
  · intro h
    refine List.mem_map.mpr ⟨p, hp, ?_⟩
    have hb : (((ev p.1).drop 2).any RVal.isnan ||
        ((ev p.2).drop 2).any RVal.isnan) = true := by
      rcases h with h | h <;> simp [h]
    simp [hb]
  · intro h1 h2
    refine List.mem_map.mpr ⟨p, hp, ?_⟩
    simp [h1, h2]
  · intro hid hfin hsq
    refine List.mem_map.mpr ⟨p, hp, ?_⟩
    have hnan : ((ev p.1).drop 2).any RVal.isnan = false :=
      any_isnan_eq_false_of_all_isfin hfin
    have hnan2 : ((ev p.2).drop 2).any RVal.isnan = false := by
      rw [← hid]; exact hnan
    have hdist : eucDistance sq ((ev p.1).drop 2) ((ev p.2).drop 2) =
        RVal.fin 0 := by
      rw [← hid, eucDistance_self sq _ hfin, hsq]
    simp [hnan, hnan2, hdist]

/-- Witness for C6 (amended) at a concrete eigenvalue mapping whose left
and right vectors coincide and are finite. -/
theorem compute_asymmetry_nan_sentinel_witness :
    (("Left-Striatum", "Right-Striatum") ∈ asymmetryStructures true ∧
      ((fun _ => [RVal.fin 1, RVal.fin 1, RVal.fin 0]) "Left-Striatum" =
        (fun _ => [RVal.fin 1, RVal.fin 1, RVal.fin 0]) "Right-Striatum") ∧
      (((fun _ : String => [RVal.fin 1, RVal.fin 1, RVal.fin 0])
        "Left-Striatum").drop 2).all RVal.isfin = true ∧
      (fun q : ℚ => q) 0 = 0) ∧
      ("Left-Striatum" ++ "_" ++ "Right-Striatum", RVal.fin 0) ∈
        computeAsymmetry (fun q => q)
          (fun _ => [RVal.fin 1, RVal.fin 1, RVal.fin 0]) true :=
  ⟨⟨by decide, rfl, by decide, rfl⟩,
    (compute_asymmetry_nan_sentinel (fun q => q)
      (fun _ => [RVal.fin 1, RVal.fin 1, RVal.fin 0]) true
      ("Left-Striatum", "Right-Striatum") (by decide)).2.2.2 rfl
      (by decide) rfl⟩

/-- C10: for every input eigenvalue mapping, `compute_asymmetry` returns
exactly one entry per declared pair, keyed `"{left}_{right}"` in the
declared order: the 12 fixed subcortical pairs, plus the 2 cortical
pairs exactly when `skip_cortex` is false; the keys are pairwise
distinct and no other key appears, and an entry is present even for
pairs whose inputs are invalid (the value does not affect the key
list). -/
theorem compute_asymmetry_keys (sq : ℚ → ℚ) (ev : String → List RVal)
    (sc : Bool) :
    (computeAsymmetry sq ev sc).map Prod.fst =
      (asymmetryStructures sc).map (fun p => p.1 ++ "_" ++ p.2) ∧
    ((computeAsymmetry sq ev sc).map Prod.fst).Nodup ∧
    (computeAsymmetry sq ev sc).length = if sc then 12 else 14 := by
  have hmap : (computeAsymmetry sq ev sc).map Prod.fst =
      (asymmetryStructures sc).map (fun p => p.1 ++ "_" ++ p.2) := by
    rw [computeAsymmetry, List.map_map]
    rfl
  refine ⟨hmap, ?_, ?_⟩
  · rw [hmap]
    cases sc <;> decide
  · rw [computeAsymmetry, List.length_map]
    cases sc <;> rfl

/-- C7 counterexample: the source raises skimage's `ValueError` (the
level 0.5 lies outside the data range of an all-zero mask); no
`EmptyMaskError` class exists anywhere in the repository, so the failure
is not an `EmptyMaskError`. -/
theorem create_aseg_surface_empty_mask_counterexample :
    createAsegSurface (fun _ => ([], [])) (fun _ => (1, []))
        [0, 0, 0, 0] [2] = Except.error PyError.valueError ∧
      PyError.valueError ≠ PyError.emptyMaskError :=
  ⟨rfl, by decide⟩

/-- C7 (amended): whenever the binarized mask contains no foreground
voxel, `create_aseg_surface` fails — with the `ValueError` raised by
`skimage.measure.marching_cubes`, not with an `EmptyMaskError` — and no
surface path is produced. -/
theorem create_aseg_surface_empty_mask_value_error
    (mc : List ℚ → List Vec3 × List Tri) (conn : List Tri → ℕ × List ℕ)
    (aseg : List ℚ) (indices : List ℤ)
    (h0 : (binarizeAseg aseg indices).all (· = 0) = true) :
    createAsegSurface mc conn aseg indices =
        Except.error PyError.valueError ∧
      ∀ p : String, createAsegSurface mc conn aseg indices ≠ Except.ok p := by
  have herr : createAsegSurface mc conn aseg indices =
      Except.error PyError.valueError := by
    rw [createAsegSurface]
    simp [h0]
  exact ⟨herr, fun p hp => by rw [herr] at hp; exact Except.noConfusion hp⟩

/-- Witness for C7 (amended) at a concrete volume in which no voxel
matches the requested label set. -/
theorem create_aseg_surface_empty_mask_value_error_witness :
    (binarizeAseg [0, 1, 3] [2]).all (· = 0) = true ∧
      (createAsegSurface (fun _ => ([], [])) (fun _ => (1, []))
          [0, 1, 3] [2] = Except.error PyError.valueError ∧
        ∀ p : String, createAsegSurface (fun _ => ([], []))
          (fun _ => (1, [])) [0, 1, 3] [2] ≠ Except.ok p) :=
  ⟨by decide,
    create_aseg_surface_empty_mask_value_error (fun _ => ([], []))
      (fun _ => (1, [])) [0, 1, 3] [2] (by decide)⟩

/-- C9: src/brainprint/surfaces.py never imports `os`, so every call of
`create_aseg_surface` that gets past mask binarization, marching-cubes
extraction and mesh cleaning hits `os.makedirs` at the VTK-export step
and raises `NameError`; consequently `create_aseg_surface` can never
return a path successfully, on any input. -/
theorem create_aseg_surface_os_name_error
    (mc : List ℚ → List Vec3 × List Tri) (conn : List Tri → ℕ × List ℕ)
    (aseg : List ℚ) (indices : List ℤ)
    (hmask : (binarizeAseg aseg indices).all (· = 0) = false)
    (hvalid : (mc (binarizeAseg aseg indices)).2.any (fun tr =>
        (mc (binarizeAseg aseg indices)).1.length ≤ tr.t1 ||
        (mc (binarizeAseg aseg indices)).1.length ≤ tr.t2 ||
        (mc (binarizeAseg aseg indices)).1.length ≤ tr.t3) = false) :
    createAsegSurface mc conn aseg indices =
        Except.error PyError.nameError ∧
      ∀ mcA : List ℚ → List Vec3 × List Tri,
        ∀ connA : List Tri → ℕ × List ℕ, ∀ asegA : List ℚ,
        ∀ indicesA : List ℤ, ∀ p : String,
          createAsegSurface mcA connA asegA indicesA ≠ Except.ok p := by
  have hos : "os" ∉ surfacesModuleGlobals := by decide
  constructor
  · rw [createAsegSurface]
    simp [hmask, hvalid, hos]
  · intro mcA connA asegA indicesA p hp
    rw [createAsegSurface] at hp
    by_cases h0 : (binarizeAseg asegA indicesA).all (· = 0) = true
    · simp [h0] at hp
    · simp only [h0] at hp
      by_cases h1 : (mcA (binarizeAseg asegA indicesA)).2.any (fun tr =>
          (mcA (binarizeAseg asegA indicesA)).1.length ≤ tr.t1 ||
          (mcA (binarizeAseg asegA indicesA)).1.length ≤ tr.t2 ||
          (mcA (binarizeAseg asegA indicesA)).1.length ≤ tr.t3) = true
      · simp [h1] at hp
      · simp [h1, hos] at hp

/-- Witness for C9 at a concrete volume with one foreground voxel and a
trivially valid marching-cubes oracle. -/
theorem create_aseg_surface_os_name_error_witness :
    ((binarizeAseg [0, 2] [2]).all (· = 0) = false ∧
      ((fun _ : List ℚ => (([] : List Vec3), ([] : List Tri)))
          (binarizeAseg [0, 2] [2])).2.any (fun tr =>
        ((fun _ : List ℚ => (([] : List Vec3), ([] : List Tri)))
            (binarizeAseg [0, 2] [2])).1.length ≤ tr.t1 ||
        ((fun _ : List ℚ => (([] : List Vec3), ([] : List Tri)))
            (binarizeAseg [0, 2] [2])).1.length ≤ tr.t2 ||
        ((fun _ : List ℚ => (([] : List Vec3), ([] : List Tri)))
            (binarizeAseg [0, 2] [2])).1.length ≤ tr.t3) = false) ∧
      (createAsegSurface (fun _ => ([], [])) (fun _ => (1, []))
          [0, 2] [2] = Except.error PyError.nameError ∧
        ∀ mcA : List ℚ → List Vec3 × List Tri,
          ∀ connA : List Tri → ℕ × List ℕ, ∀ asegA : List ℚ,
          ∀ indicesA : List ℤ, ∀ p : String,
            createAsegSurface mcA connA asegA indicesA ≠ Except.ok p) :=
  ⟨⟨by decide, by decide⟩,
    create_aseg_surface_os_name_error (fun _ => ([], []))
      (fun _ => (1, [])) [0, 2] [2] (by decide) (by decide)⟩

/-- C8 counterexample: at a first eigenvalue of `2e-16` — whose absolute
value exceeds `1e-16` and so, per the claim, should be left unchanged —
the code snaps to 0, because its threshold literal is `10e-16 = 1e-15`,
not `1e-16`. -/
theorem get_ev_snap_counterexample :
    getEvSnapFirst [2 / 10 ^ 16] = [0] ∧
      ¬|(2 : ℚ) / 10 ^ 16| ≤ 1 / 10 ^ 16 ∧
      (2 : ℚ) / 10 ^ 16 ≠ 0 := by
  refine ⟨?_, ?_, by norm_num⟩
  · simp only [getEvSnapFirst]
    rw [if_pos]
    rw [abs_of_pos (by norm_num)]
    norm_num
  · rw [abs_of_pos (by norm_num)]
    norm_num

/-- C8 (amended): `_get_ev` snaps the first eigenvalue to exactly 0 if
and only if its absolute value is strictly below `10e-16 = 1e-15`; a
first eigenvalue with absolute value at least `1e-15` is left
unchanged. -/
theorem get_ev_snap_threshold (e : ℚ) (rest : List ℚ) :
    (|e| < 10 / 10 ^ 16 → getEvSnapFirst (e :: rest) = 0 :: rest) ∧
      (10 / 10 ^ 16 ≤ |e| → getEvSnapFirst (e :: rest) = e :: rest) := by
  constructor
  · intro h
    simp [getEvSnapFirst, h]
  · intro h
    simp [getEvSnapFirst, not_lt.mpr h]

/-- Witness for C8 (amended): `1e-16` is snapped, `1` is not. -/
theorem get_ev_snap_threshold_witness :
    (|(1 : ℚ) / 10 ^ 16| < 10 / 10 ^ 16 ∧
      getEvSnapFirst [1 / 10 ^ 16] = [0]) ∧
      ((10 : ℚ) / 10 ^ 16 ≤ |(1 : ℚ)| ∧ getEvSnapFirst [1] = [1]) :=
  ⟨⟨by rw [abs_of_pos (by norm_num)]; norm_num,
      (get_ev_snap_threshold (1 / 10 ^ 16) []).1
        (by rw [abs_of_pos (by norm_num)]; norm_num)⟩,
    ⟨by rw [abs_of_pos (by norm_num)]; norm_num,
      (get_ev_snap_threshold 1 []).2
        (by rw [abs_of_pos (by norm_num)]; norm_num)⟩⟩

end BrainPrint
